import Mathlib

/-!
# Verification of the RAG chatbot retrieval pipeline

Shallow embedding of the core retrieval-and-ranking pipeline of the
RAG chatbot repository:

* `src/core/reranker.py` — `SimpleReranker.calculate_lexical_similarity`,
  `SimpleReranker.simple_rerank`;
* `src/core/hyde_retrieval.py` — `HyDERetriever.generate_hypothetical_answer`,
  `HyDERetriever.hyde_retrieve`;
* `src/core/vector_store_compatible.py` — `VectorStoreManager.similarity_search`;
* `src/core/enhanced_rag_chain.py` — `EnhancedRAGChain.calculate_enhanced_confidence`,
  `ask_basic`, `ask_hyde`, `ask_rerank`, `ask_enhanced`;
* `src/app.py` — the `rag_method` dispatch in `main`.

Modelling conventions: Python floats are modelled as exact rationals (`ℚ`);
Python string hashing in the HyDE dedup loop is modelled as the content string
itself (collision-free); external collaborators (the Chroma vector store and
the OpenAI chat client) are parameters returning `Except` values, a `.error`
modelling a raised exception; wall-clock time is an input parameter (`elapsed`)
since the embedding has no real clock; a Python `int` argument that defaults
via `x or d` is modelled as a `Nat`, with `0` playing the role of both `0` and
`None` (both falsy in Python).
-/

namespace RagSpec

/-- Python `str.lower()` (ASCII case folding; characters outside A–Z, such as
the repository's Chinese text, are unchanged, matching Python on that text). -/
def pyLower (s : String) : String :=
  String.mk (s.toList.map Char.toLower)

/-- A character matched by the regex class `\w` in `re.findall(r'\w+', ·)`. -/
def isWordChar (c : Char) : Bool :=
  c.isAlphanum || c == '_'

/-- Split a character list into maximal runs of characters satisfying `keep`,
returning the runs as strings.  `acc` holds the current run, reversed. -/
def tokenizeAux (keep : Char → Bool) : List Char → List Char → List String
  | [], acc => if acc.isEmpty then [] else [String.mk acc.reverse]
  | c :: cs, acc =>
    if keep c then
      tokenizeAux keep cs (c :: acc)
    else if acc.isEmpty then
      tokenizeAux keep cs []
    else
      String.mk acc.reverse :: tokenizeAux keep cs []

/-- Python `s.split()` with no argument: maximal runs of non-whitespace. -/
def pySplitWS (s : String) : List String :=
  tokenizeAux (fun c => !c.isWhitespace) s.toList []

/-- Python `re.findall(r'\w+', s.lower())`: maximal runs of word characters
of the case-folded string. -/
def wordTokens (s : String) : List String :=
  tokenizeAux isWordChar (pyLower s).toList []

/-- Python `set(s.lower().split())`, as a `Finset`. -/
def tokenSetWS (s : String) : Finset String :=
  (pySplitWS (pyLower s)).toFinset

/-- Auxiliary for `strContains`: does `needle` occur contiguously in the
second list? -/
def substrAux (needle : List Char) : List Char → Bool
  | [] => needle.isEmpty
  | c :: cs => needle.isPrefixOf (c :: cs) || substrAux needle cs

/-- Python substring test `needle in hay` on strings. -/
def strContains (hay needle : String) : Bool :=
  substrAux needle.toList hay.toList

/-- A retrieved document chunk (`langchain.schema.Document`): its text and the
two metadata fields the pipeline reads (`metadata.get("source_file", …)`,
`metadata.get("chunk_id", …)`). -/
structure Doc where
  page_content : String
  source_file : Option String
  chunk_id : Option Nat
deriving DecidableEq

/-! ## Reranker (`src/core/reranker.py`) -/

/-- `SimpleReranker.calculate_lexical_similarity` (reranker.py lines 20–32):
Jaccard overlap of the `\w+` token sets of the case-folded query and document;
`0.0` when either token set is empty. -/
def calculate_lexical_similarity (query document : String) : ℚ :=
  let query_words := (wordTokens query).toFinset
  let doc_words := (wordTokens document).toFinset
  if query_words = ∅ ∨ doc_words = ∅ then 0
  else ((query_words ∩ doc_words).card : ℚ) / ((query_words ∪ doc_words).card : ℚ)

/-- The per-document score computed in the body of `simple_rerank`
(reranker.py lines 82–88): `lexical_score * 0.8 + length_factor * 0.2` with
`length_factor = min(len(page_content)/100, 1.0)`. -/
def rerank_final_score (query content : String) : ℚ :=
  calculate_lexical_similarity query content * (8/10) +
    min ((content.length : ℚ) / 100) 1 * (2/10)

/-- `SimpleReranker.simple_rerank` (reranker.py lines 73–101).  Python's
`list.sort(key=…, reverse=True)` is a stable descending sort, modelled by
`List.mergeSort` (which is stable) with comparison `b.score ≤ a.score`.
`top_k = top_k or len(documents)`: a falsy `top_k` (`0`/`None`) becomes the
candidate count.  The function is polymorphic in the document type, reading
only `content` (Python duck-typing of `doc.page_content`). -/
def simple_rerank {α : Type} (content : α → String) (query : String)
    (documents : List α) (top_k : Nat) : List (α × ℚ) :=
  let top_k := if top_k = 0 then documents.length else top_k
  let scored_docs := documents.map (fun d => (d, rerank_final_score query (content d)))
  (scored_docs.mergeSort (fun a b => decide (b.2 ≤ a.2))).take top_k

/-! ## Vector store wrapper (`src/core/vector_store_compatible.py`) -/

/-- Python's `k = k or default` on an integer argument where both `0` and
`None` are falsy (`None` is modelled as `0`). -/
def pyOr (k default : Nat) : Nat :=
  if k = 0 then default else k

/-- `VectorStoreManager.similarity_search` (vector_store_compatible.py lines
96–105): coalesce a falsy `k` to `settings.TOP_K`, then delegate to the
underlying Chroma store, modelled as the collaborator `inner` (which may
raise, i.e. return `.error`). -/
def similarity_search (inner : String → Nat → Except String (List Doc))
    (topK : Nat) (query : String) (k : Nat) : Except String (List Doc) :=
  inner query (pyOr k topK)

/-! ## HyDE retrieval (`src/core/hyde_retrieval.py`) -/

/-- `HyDERetriever.generate_hypothetical_answer` (hyde_retrieval.py lines
27–41): one LLM call (collaborator `hypo`); on exception, fall back to the
original question. -/
def generate_hypothetical_answer (hypo : String → Except String String)
    (question : String) : String :=
  match hypo question with
  | .ok a => a
  | .error _ => question

/-- The merge-and-dedup loop of `hyde_retrieve` (hyde_retrieval.py lines
60–69): walk the concatenated results, keep a document whose content was not
seen yet, and break as soon as `k` documents are kept.  `seen` holds the
contents already kept (Python keeps `hash(page_content)`; modelled
collision-free by the content itself), `acc` the kept documents in order. -/
def hydeLoop (k : Nat) (seen : List String) (acc : List Doc) :
    List Doc → List Doc
  | [] => acc
  | d :: rest =>
    if d.page_content ∈ seen then hydeLoop k seen acc rest
    else if k ≤ acc.length + 1 then acc ++ [d]
    else hydeLoop k (d.page_content :: seen) (acc ++ [d]) rest

/-- `HyDERetriever.hyde_retrieve` (hyde_retrieval.py lines 43–72): coalesce a
falsy `k` to `settings.TOP_K`; search with the hypothetical answer requesting
`2k`, then with the original question requesting `k`; concatenate
(hypothetical-answer results first), dedup by exact content keeping
first-seen order, and truncate to `k`. -/
def hyde_retrieve (search : String → Nat → Except String (List Doc))
    (hypo : String → Except String String) (topK : Nat) (question : String)
    (k : Nat) : Except String (List Doc) :=
  let k := pyOr k topK
  let hypothetical_answer := generate_hypothetical_answer hypo question
  match similarity_search search topK hypothetical_answer (k * 2) with
  | .error e => .error e
  | .ok hyde_results =>
    match similarity_search search topK question k with
    | .error e => .error e
    | .ok question_results =>
      .ok ((hydeLoop k [] [] (hyde_results ++ question_results)).take k)

/-! ## Confidence estimator (`src/core/enhanced_rag_chain.py` lines 41–76) -/

/-- The keyword-match component (enhanced_rag_chain.py lines 68–72): loop over
the set of question words counting those longer than 2 characters that occur
as substrings of the lowercased answer. -/
def keywordLoop (answerLower : String) : List String → Nat
  | [] => 0
  | w :: ws =>
    (if 2 < w.length ∧ strContains answerLower w then 1 else 0) +
      keywordLoop answerLower ws

/-- `keyword_score` of `calculate_enhanced_confidence` (lines 68–72):
`min(count / max(len(question_words), 1), 1.0) * 0.1`, where the count runs
over the deduplicated question words (a Python `set`). -/
def keyword_score (question answer : String) : ℚ :=
  let question_words := (pySplitWS (pyLower question)).dedup
  let count := keywordLoop (pyLower answer) question_words
  min ((count : ℚ) / (max question_words.length 1 : Nat)) 1 * (1/10)

/-- The relevance accumulation loop (lines 53–60): sum of the word-set Jaccard
overlaps between the question and each document, a document with an empty
word set (or an empty question word set) contributing nothing. -/
def relevance_sum (question_words : Finset String) : List Doc → ℚ
  | [] => 0
  | d :: rest =>
    (let doc_words := tokenSetWS d.page_content
     if question_words ≠ ∅ ∧ doc_words ≠ ∅ then
       ((question_words ∩ doc_words).card : ℚ) /
         ((question_words ∪ doc_words).card : ℚ)
     else 0) + relevance_sum question_words rest

/-- The sum of the five weighted components of
`calculate_enhanced_confidence` (lines 47–74), before the final clamp. -/
def enhanced_confidence_total (topK : Nat) (source_docs : List Doc)
    (question answer retrieval_method : String) : ℚ :=
  let doc_score := min ((source_docs.length : ℚ) / (topK : ℚ)) 1 * (3/10)
  let method_bonus : ℚ := if retrieval_method = "hyde" then 1/10 else 0
  let question_words := tokenSetWS question
  let relevance_score :=
    min (relevance_sum question_words source_docs / (source_docs.length : ℚ)) 1 * (3/10)
  let answer_length_score := min (((pySplitWS answer).length : ℚ) / 50) 1 * (2/10)
  doc_score + relevance_score + answer_length_score +
    keyword_score question answer + method_bonus

/-- `EnhancedRAGChain.calculate_enhanced_confidence` (enhanced_rag_chain.py
lines 41–76): `0.1` on empty `source_docs`, otherwise the weighted component
sum clamped to `[0.1, 0.95]` by `min(max(total, 0.1), 0.95)`. -/
def calculate_enhanced_confidence (topK : Nat) (source_docs : List Doc)
    (question answer retrieval_method : String) : ℚ :=
  if source_docs = [] then 1/10
  else
    min (max (enhanced_confidence_total topK source_docs question answer
      retrieval_method) (1/10)) (95/100)

/-! ## Mode dispatch (`src/app.py` lines 166–173) -/

/-- The four composed ask pipelines of `EnhancedRAGChain`. -/
inductive RagPipeline where
  | basic
  | hyde
  | rerank
  | enhanced
deriving DecidableEq

/-- The `rag_method` dispatch in `main` (app.py lines 166–173): an
`if/elif/elif/else` chain whose final `else` runs `ask_enhanced`. -/
def dispatch_rag_method (rag_method : String) : RagPipeline :=
  if rag_method = "basic" then .basic
  else if rag_method = "hyde" then .hyde
  else if rag_method = "rerank" then .rerank
  else .enhanced

/-! ## The four ask pipelines (`src/core/enhanced_rag_chain.py` lines 78–354) -/

/-- A user-facing citation entry, one per retrieved chunk. -/
structure Citation where
  chunk_id : Nat
  content : String
  source : String
  chunk_index : Nat
  retrieval_method : String
  rerank_score : Option ℚ
deriving DecidableEq

/-- The dictionary returned by every `ask_*` method. -/
structure AskResult where
  question : String
  answer : String
  citations : List Citation
  confidence : ℚ
  response_time : ℚ
  source_count : Nat
  tokens_used : Option Nat
  retrieval_method : String
deriving DecidableEq

/-- The external collaborators of `EnhancedRAGChain`: the Chroma similarity
search (behind `VectorStoreManager`), the chat-completion call used to
generate the final answer (returning the answer text and the optional
`usage.total_tokens`), and the chat-completion call used by HyDE for the
hypothetical answer.  An `.error` models a raised exception. -/
structure Collab where
  search : String → Nat → Except String (List Doc)
  generate : String → Except String (String × Option Nat)
  hypo : String → Except String String

/-- `round(x, 3)` (used for `rerank_score` in citations); Python's banker's
rounding differs from `round` only on exact half-way ties, which no claim
depends on. -/
def round3 (x : ℚ) : ℚ :=
  ((round (x * 1000) : ℤ) : ℚ) / 1000

/-- Citation content: `page_content[:200] + "..."` when longer than 200
characters, the full content otherwise. -/
def truncateContent (s : String) : String :=
  if 200 < s.length then s.take 200 ++ "..." else s

/-- The citation built for document `i` in the basic/hyde loops
(enhanced_rag_chain.py lines 93–99 and 159–165): no rerank score. -/
def buildCitations (tag : String) (docs : List Doc) : List Citation :=
  docs.enum.map (fun p =>
    { chunk_id := p.1
      content := truncateContent p.2.page_content
      source := p.2.source_file.getD "unknown"
      chunk_index := p.2.chunk_id.getD p.1
      retrieval_method := tag
      rerank_score := none })

/-- The citation built for ranked document `i` in the rerank/enhanced loops
(lines 231–238 and 304–311): includes `round(score, 3)`. -/
def buildCitationsRanked (tag : String) (ranked : List (Doc × ℚ)) :
    List Citation :=
  ranked.enum.map (fun p =>
    { chunk_id := p.1
      content := truncateContent p.2.1.page_content
      source := p.2.1.source_file.getD "unknown"
      chunk_index := p.2.1.chunk_id.getD p.1
      retrieval_method := tag
      rerank_score := some (round3 p.2.2) })

/-- The numbered context block `"文档片段 {i+1}:\n{page_content}"` joined with
blank lines (lines 88–101). -/
def build_context (docs : List Doc) : String :=
  String.intercalate "\n\n"
    (docs.enum.map (fun p =>
      "文档片段 " ++ toString (p.1 + 1) ++ ":\n" ++ p.2.page_content))

/-- The system prompt of `EnhancedRAGChain` with the `context` and `question`
slots filled in (lines 25–39 and 104). -/
def build_prompt (docs : List Doc) (question : String) : String :=
  "你是一个专业的AI助手。请基于以下文档内容回答用户的问题。\n\n请严格遵循以下要求：\n1. 只基于提供的文档内容回答，不要编造信息\n2. 如果文档中没有足够信息，请明确说明\n3. 回答要简洁明了，突出重点\n4. 适当引用文档中的原文\n5. 用中文回答\n\n相关文档内容：\n"
    ++ build_context docs
    ++ "\n\n用户问题："
    ++ question
    ++ "\n\n请提供准确、有用的回答："

/-- The dictionary returned from the `except` branch of every `ask_*` method
(e.g. lines 132–142): apology answer embedding the exception text, empty
citations, confidence `0.0`, `source_count` `0`, `tokens_used` `0`, and the
elapsed time measured at the failure point. -/
def askError (question err : String) (elapsed : ℚ) (tag : String) : AskResult :=
  { question := question
    answer := "抱歉，回答问题时出现错误：" ++ err
    citations := []
    confidence := 0
    response_time := elapsed
    source_count := 0
    tokens_used := some 0
    retrieval_method := tag }

/-- `EnhancedRAGChain.ask_basic` (lines 78–142): plain similarity search with
`k = settings.TOP_K`, then one generation call.  `elapsed` is the wall-clock
duration observed at whichever return point is reached. -/
def ask_basic (c : Collab) (topK : Nat) (elapsed : ℚ) (question : String) :
    AskResult :=
  match similarity_search c.search topK question topK with
  | .error e => askError question e elapsed "basic"
  | .ok source_docs =>
    match c.generate (build_prompt source_docs question) with
    | .error e => askError question e elapsed "basic"
    | .ok (answer, tokens) =>
      { question := question
        answer := answer
        citations := buildCitations "basic" source_docs
        confidence :=
          calculate_enhanced_confidence topK source_docs question answer "basic"
        response_time := elapsed
        source_count := source_docs.length
        tokens_used := tokens
        retrieval_method := "basic" }

/-- `EnhancedRAGChain.ask_hyde` (lines 144–208): HyDE retrieval with
`k = settings.TOP_K`, then one generation call. -/
def ask_hyde (c : Collab) (topK : Nat) (elapsed : ℚ) (question : String) :
    AskResult :=
  match hyde_retrieve c.search c.hypo topK question topK with
  | .error e => askError question e elapsed "hyde"
  | .ok source_docs =>
    match c.generate (build_prompt source_docs question) with
    | .error e => askError question e elapsed "hyde"
    | .ok (answer, tokens) =>
      { question := question
        answer := answer
        citations := buildCitations "hyde" source_docs
        confidence :=
          calculate_enhanced_confidence topK source_docs question answer "hyde"
        response_time := elapsed
        source_count := source_docs.length
        tokens_used := tokens
        retrieval_method := "hyde" }

/-- `EnhancedRAGChain.ask_rerank` (lines 210–281): similarity search with
`k = 2 * TOP_K`, rerank down to `TOP_K`, then one generation call. -/
def ask_rerank (c : Collab) (topK : Nat) (elapsed : ℚ) (question : String) :
    AskResult :=
  match similarity_search c.search topK question (topK * 2) with
  | .error e => askError question e elapsed "rerank"
  | .ok candidate_docs =>
    let ranked_docs := simple_rerank Doc.page_content question candidate_docs topK
    let source_docs := ranked_docs.map Prod.fst
    match c.generate (build_prompt source_docs question) with
    | .error e => askError question e elapsed "rerank"
    | .ok (answer, tokens) =>
      { question := question
        answer := answer
        citations := buildCitationsRanked "rerank" ranked_docs
        confidence :=
          calculate_enhanced_confidence topK source_docs question answer "rerank"
        response_time := elapsed
        source_count := source_docs.length
        tokens_used := tokens
        retrieval_method := "rerank" }

/-- `EnhancedRAGChain.ask_enhanced` (lines 283–354): HyDE retrieval with
`k = 2 * TOP_K`, rerank down to `TOP_K`, then one generation call; tagged
`"hyde+rerank"`. -/
def ask_enhanced (c : Collab) (topK : Nat) (elapsed : ℚ) (question : String) :
    AskResult :=
  match hyde_retrieve c.search c.hypo topK question (topK * 2) with
  | .error e => askError question e elapsed "hyde+rerank"
  | .ok candidate_docs =>
    let ranked_docs := simple_rerank Doc.page_content question candidate_docs topK
    let source_docs := ranked_docs.map Prod.fst
    match c.generate (build_prompt source_docs question) with
    | .error e => askError question e elapsed "hyde+rerank"
    | .ok (answer, tokens) =>
      { question := question
        answer := answer
        citations := buildCitationsRanked "hyde+rerank" ranked_docs
        confidence :=
          calculate_enhanced_confidence topK source_docs question answer
            "hyde+rerank"
        response_time := elapsed
        source_count := source_docs.length
        tokens_used := tokens
        retrieval_method := "hyde+rerank" }

/-! ## Spec-side definitions

These follow the wording of the specification (not the code) and are used to
compare the code's behaviour against the spec's formulas. -/

/-- Jaccard similarity of two finite sets, as written in the spec
(`jaccard(query_tokens, doc_tokens) = |A ∩ B| / |A ∪ B|`); `0` when both sets
are empty (division by zero yields `0` in `ℚ`). -/
def jaccard (A B : Finset String) : ℚ :=
  ((A ∩ B).card : ℚ) / ((A ∪ B).card : ℚ)

/-- Claim C4's formula for the keyword component: the fraction of question
tokens of length greater than 2 characters that literally appear in the
answer, times `0.1`.  The denominator counts only the tokens longer than 2
characters. -/
def keyword_score_claim (question answer : String) : ℚ :=
  let toks := (pySplitWS (pyLower question)).dedup
  let eligible := toks.filter (fun w => decide (2 < w.length))
  ((eligible.filter (fun w => strContains (pyLower answer) w)).length : ℚ) /
      (eligible.length : ℚ) * (1/10)

/-- The amended keyword formula actually computed by the code: the number of
distinct question tokens longer than 2 characters appearing as substrings of
the case-folded answer, divided by the number of all distinct question tokens
(at least 1), times `0.1`. -/
def keyword_score_amended (question answer : String) : ℚ :=
  let toks := (pySplitWS (pyLower question)).dedup
  ((toks.filter (fun w => decide (2 < w.length) &&
      strContains (pyLower answer) w)).length : ℚ) /
    ((max toks.length 1 : Nat) : ℚ) * (1/10)

/-- First-seen deduplication by exact content, as worded in the spec:
keep a document, drop every later document with the same content. -/
def dedupByContent : List Doc → List Doc
  | [] => []
  | d :: rest =>
    d :: dedupByContent (rest.filter (fun x => x.page_content != d.page_content))
termination_by l => l.length
decreasing_by
  simp only [List.length_cons]
  exact Nat.lt_succ_of_le (List.length_filter_le _ _)

/-! ## Shared auxiliary lemmas -/

/-- `x or x` is `x`, for the Python default-coalescing idiom. -/
theorem pyOr_self (k : Nat) : pyOr k k = k := by
  simp [pyOr]

/-- A non-zero first argument wins in `pyOr`. -/
theorem pyOr_of_ne_zero {k : Nat} (h : k ≠ 0) (d : Nat) : pyOr k d = k := by
  simp [pyOr, h]

/-! ## Claims -/

/-- C3 (counterexample): the claim that an unknown retrieval mode name is a
caller error — never silently dispatched to one of the four pipelines — is
false: the concrete unknown name `"bogus"` is dispatched to a pipeline
(namely `enhanced`) by the `if/elif/else` chain of `src/app.py`. -/
theorem c3_counterexample :
    ¬ (∀ m : String, m ≠ "basic" → m ≠ "hyde" → m ≠ "rerank" → m ≠ "enhanced" →
      dispatch_rag_method m ≠ RagPipeline.basic ∧
      dispatch_rag_method m ≠ RagPipeline.hyde ∧
      dispatch_rag_method m ≠ RagPipeline.rerank ∧
      dispatch_rag_method m ≠ RagPipeline.enhanced) := by
  intro h
  exact (h "bogus" (by decide) (by decide) (by decide) (by decide)).2.2.2 (by decide)

/-- C3 (amended): the dispatch maps each of the four known mode names to its
own pipeline, and every unknown mode name is silently dispatched to the
`enhanced` pipeline by the final `else` branch — there is no `InvalidMode`
error. -/
theorem c3_dispatch_amended :
    dispatch_rag_method "basic" = RagPipeline.basic ∧
    dispatch_rag_method "hyde" = RagPipeline.hyde ∧
    dispatch_rag_method "rerank" = RagPipeline.rerank ∧
    dispatch_rag_method "enhanced" = RagPipeline.enhanced ∧
    ∀ m : String, m ≠ "basic" → m ≠ "hyde" → m ≠ "rerank" →
      dispatch_rag_method m = RagPipeline.enhanced := by
  refine ⟨by decide, by decide, by decide, by decide, ?_⟩
  intro m h1 h2 h3
  simp [dispatch_rag_method, h1, h2, h3]

/-- C3 (witness): the amended dispatch theorem applied to the concrete
unknown mode name `"semantic"`. -/
theorem c3_witness : dispatch_rag_method "semantic" = RagPipeline.enhanced :=
  c3_dispatch_amended.2.2.2.2 "semantic" (by decide) (by decide) (by decide)

/-- C7: the confidence estimator returns exactly `0.1` on empty
`source_docs`, and for non-empty `source_docs` its value lies in the closed
interval `[0.1, 0.95]`, for every question, answer, method and configured
`top_k`. -/
theorem c7_confidence_range (topK : Nat) (docs : List Doc) (q a m : String) :
    (docs = [] → calculate_enhanced_confidence topK docs q a m = 1/10) ∧
    (docs ≠ [] → 1/10 ≤ calculate_enhanced_confidence topK docs q a m ∧
      calculate_enhanced_confidence topK docs q a m ≤ 95/100) := by
  constructor
  · intro h
    simp [calculate_enhanced_confidence, h]
  · intro h
    rw [calculate_enhanced_confidence, if_neg h]
    exact ⟨le_min (le_max_right _ _) (by norm_num), min_le_right _ _⟩

/-- C7 (witness): the range theorem applied at the empty document list and at
a concrete singleton document list. -/
theorem c7_witness :
    calculate_enhanced_confidence 5 [] "q" "a" "basic" = 1/10 ∧
    (1/10 ≤ calculate_enhanced_confidence 5 [⟨"x", none, none⟩] "q" "a" "basic" ∧
      calculate_enhanced_confidence 5 [⟨"x", none, none⟩] "q" "a" "basic" ≤ 95/100) :=
  ⟨(c7_confidence_range 5 [] "q" "a" "basic").1 rfl,
   (c7_confidence_range 5 [⟨"x", none, none⟩] "q" "a" "basic").2 (by decide)⟩

/-- C10: a falsy `k`/`top_k` argument (`0`, modelling Python's `0` and
`None`) is silently replaced by a default at each public retrieval interface:
`similarity_search` and `hyde_retrieve` behave as if `k` were
`settings.TOP_K`, and `simple_rerank` behaves as if `top_k` were the
candidate count, returning all candidates. -/
theorem c10_default_coalescing :
    (∀ (inner : String → Nat → Except String (List Doc)) (topK : Nat) (q : String),
      similarity_search inner topK q 0 = similarity_search inner topK q topK) ∧
    (∀ (search : String → Nat → Except String (List Doc))
      (hypo : String → Except String String) (topK : Nat) (q : String),
      hyde_retrieve search hypo topK q 0 = hyde_retrieve search hypo topK q topK) ∧
    (∀ (α : Type) (content : α → String) (q : String) (docs : List α),
      simple_rerank content q docs 0 = simple_rerank content q docs docs.length ∧
      (simple_rerank content q docs 0).length = docs.length) := by
  refine ⟨?_, ?_, ?_⟩
  · intro inner topK q
    simp [similarity_search, pyOr]
  · intro search hypo topK q
    simp [hyde_retrieve, pyOr_self, pyOr]
  · intro α content q docs
    constructor
    · simp [simple_rerank]
    · simp [simple_rerank]

/-- The code's guarded lexical similarity coincides with the spec's Jaccard
formula: when either token set is empty the intersection is empty, so the
spec formula also yields `0`. -/
theorem lexical_eq_jaccard (q d : String) :
    calculate_lexical_similarity q d =
      jaccard (wordTokens q).toFinset (wordTokens d).toFinset := by
  rw [calculate_lexical_similarity, jaccard]
  by_cases h : (wordTokens q).toFinset = ∅ ∨ (wordTokens d).toFinset = ∅
  · rw [if_pos h]
    rcases h with h | h <;> simp [h]
  · rw [if_neg h]

/-- The Jaccard similarity is non-negative. -/
theorem jaccard_nonneg (A B : Finset String) : 0 ≤ jaccard A B := by
  rw [jaccard]
  positivity

/-- The Jaccard similarity is at most one. -/
theorem jaccard_le_one (A B : Finset String) : jaccard A B ≤ 1 := by
  rw [jaccard]
  rcases Nat.eq_zero_or_pos (A ∪ B).card with h | h
  · simp [h]
  · apply div_le_one_of_le₀
    · exact_mod_cast Finset.card_le_card (Finset.inter_subset_union)
    · positivity

/-- C6: for every query and candidate content, the lexical rerank score
computed by `simple_rerank` equals `0.8 × jaccard(query_tokens, doc_tokens) +
0.2 × min(len(content)/100, 1.0)` over the case-folded `\w+` token sets, and
this score always lies in `[0, 1]`. -/
theorem c6_lexical_score (query content : String) :
    rerank_final_score query content =
      (8/10) * jaccard (wordTokens query).toFinset (wordTokens content).toFinset +
        (2/10) * min ((content.length : ℚ) / 100) 1 ∧
    0 ≤ rerank_final_score query content ∧
    rerank_final_score query content ≤ 1 := by
  have ha0 : 0 ≤ calculate_lexical_similarity query content := by
    rw [lexical_eq_jaccard]; exact jaccard_nonneg _ _
  have ha1 : calculate_lexical_similarity query content ≤ 1 := by
    rw [lexical_eq_jaccard]; exact jaccard_le_one _ _
  have hm0 : (0:ℚ) ≤ min ((content.length : ℚ) / 100) 1 :=
    le_min (by positivity) zero_le_one
  have hm1 : min ((content.length : ℚ) / 100) 1 ≤ 1 := min_le_right _ _
  refine ⟨?_, ?_, ?_⟩
  · rw [rerank_final_score, lexical_eq_jaccard]
    ring
  · rw [rerank_final_score]
    have := mul_nonneg ha0 (by norm_num : (0:ℚ) ≤ 8/10)
    have := mul_nonneg hm0 (by norm_num : (0:ℚ) ≤ 2/10)
    linarith
  · rw [rerank_final_score]
    nlinarith [ha1, hm1, ha0, hm0]

/-- C2 (counterexample): the claim that the method bonus is `+0.1` for the
`"hyde+rerank"` method (used by `ask_enhanced`) is false at a concrete
input: the confidence total for `"hyde+rerank"` equals the total for
`"basic"` (no bonus), not the `"basic"` total plus `0.1`, because the code
compares the method string to `"hyde"` with equality. -/
theorem c2_counterexample :
    enhanced_confidence_total 5 [⟨"x", none, none⟩] "a" "b" "hyde+rerank" ≠
      enhanced_confidence_total 5 [⟨"x", none, none⟩] "a" "b" "basic" + 1/10 := by
  simp only [enhanced_confidence_total]
  rw [if_neg (by decide : ¬ ("hyde+rerank" : String) = "hyde"),
    if_neg (by decide : ¬ ("basic" : String) = "hyde")]
  intro hcontra
  linarith

/-- C2 (amended): in the confidence computation over non-empty source
documents, the method bonus is `+0.1` exactly when the method string is
`"hyde"`; both `"basic"` and the `"hyde+rerank"` method used by
`ask_enhanced` receive no bonus.  The last conjunct ties the component total
to the clamped confidence actually returned. -/
theorem c2_method_bonus_amended (topK : Nat) (docs : List Doc) (q a : String)
    (h : docs ≠ []) :
    enhanced_confidence_total topK docs q a "hyde" =
      enhanced_confidence_total topK docs q a "basic" + 1/10 ∧
    enhanced_confidence_total topK docs q a "hyde+rerank" =
      enhanced_confidence_total topK docs q a "basic" ∧
    ∀ m : String, calculate_enhanced_confidence topK docs q a m =
      min (max (enhanced_confidence_total topK docs q a m) (1/10)) (95/100) := by
  refine ⟨?_, ?_, ?_⟩
  · simp only [enhanced_confidence_total]
    rw [if_neg (by decide : ¬ ("basic" : String) = "hyde")]
    norm_num
  · simp only [enhanced_confidence_total]
    rw [if_neg (by decide : ¬ ("hyde+rerank" : String) = "hyde"),
      if_neg (by decide : ¬ ("basic" : String) = "hyde")]
  · intro m
    rw [calculate_enhanced_confidence, if_neg h]

/-- C2 (witness): the amended bonus theorem applied at a concrete non-empty
document list. -/
theorem c2_witness :
    enhanced_confidence_total 5 [⟨"x", none, none⟩] "a" "b" "hyde" =
      enhanced_confidence_total 5 [⟨"x", none, none⟩] "a" "b" "basic" + 1/10 :=
  (c2_method_bonus_amended 5 [⟨"x", none, none⟩] "a" "b" (by decide)).1

/-- The keyword counting loop counts exactly the tokens longer than 2
characters that occur as substrings of the answer. -/
theorem keywordLoop_eq_filter (ans : String) (l : List String) :
    keywordLoop ans l =
      (l.filter (fun w => decide (2 < w.length) && strContains ans w)).length := by
  induction l with
  | nil => rfl
  | cons w ws ih =>
    rw [keywordLoop]
    by_cases h : 2 < w.length ∧ strContains ans w
    · have hp : (decide (2 < w.length) && strContains ans w) = true := by
        simp [h.1, h.2]
      simp [List.filter_cons, hp, ih, Nat.add_comm]
      exact h
    · have hp : ¬ ((decide (2 < w.length) && strContains ans w) = true) := by
        simpa [Bool.and_eq_true, decide_eq_true_eq] using h
      simp [List.filter_cons, hp, ih, h]

/-- C4 (counterexample): the claim that the keyword component equals the
fraction of question tokens longer than 2 characters that appear in the
answer, times 0.1, fails at question `"is rag good"` and answer
`"rag good"`: both long tokens appear, so the claimed value is
`2/2 × 0.1 = 0.1`, but the code divides by the number of all question tokens
(`3`), producing `2/3 × 0.1 = 1/15`. -/
theorem c4_counterexample :
    keyword_score "is rag good" "rag good" ≠
      keyword_score_claim "is rag good" "rag good" := by
  have h1 : (pySplitWS (pyLower "is rag good")).dedup = ["is", "rag", "good"] := by
    decide
  have h2 : keywordLoop (pyLower "rag good") ["is", "rag", "good"] = 2 := by
    decide
  have h3 : (["is", "rag", "good"].filter (fun w => decide (2 < w.length))) =
      ["rag", "good"] := by decide
  have h4 : (["rag", "good"].filter (fun w => strContains (pyLower "rag good") w)) =
      ["rag", "good"] := by decide
  rw [keyword_score, keyword_score_claim]
  simp only [h1, h2, h3, h4]
  norm_num [min_def]

/-- C4 (amended): the keyword component equals the number of distinct
question tokens longer than 2 characters that literally appear in the
lowercased answer, divided by the number of **all** distinct question tokens
(with the denominator floored at 1), times 0.1; the `min(·, 1)` cap in the
code is redundant since the counted tokens are a subset of all tokens. -/
theorem c4_keyword_amended (q a : String) :
    keyword_score q a = keyword_score_amended q a := by
  simp only [keyword_score, keyword_score_amended]
  rw [keywordLoop_eq_filter]
  have hcnt : ((pySplitWS (pyLower q)).dedup.filter
      (fun w => decide (2 < w.length) && strContains (pyLower a) w)).length ≤
        (pySplitWS (pyLower q)).dedup.length :=
    List.length_filter_le _ _
  have hle : (((pySplitWS (pyLower q)).dedup.filter
      (fun w => decide (2 < w.length) && strContains (pyLower a) w)).length : ℚ) /
        ((max (pySplitWS (pyLower q)).dedup.length 1 : Nat) : ℚ) ≤ 1 := by
    apply div_le_one_of_le₀
    · exact_mod_cast le_trans hcnt (le_max_left _ _)
    · positivity
  rw [min_eq_left hle]

/-- C5 (counterexample): the claim that `simple_rerank` returns exactly
`min(top_k, len(candidates))` pairs for every `top_k` fails at `top_k = 0`
with one candidate: `top_k or len(documents)` coalesces `0` to the candidate
count, so one pair is returned instead of `min 0 1 = 0`. -/
theorem c5_counterexample :
    (simple_rerank Doc.page_content "q" [⟨"hello", none, none⟩] 0).length ≠
      min 0 [(⟨"hello", none, none⟩ : Doc)].length := by
  simp [simple_rerank, List.mergeSort_singleton]

/-- C5 (amended): for every truthy `top_k ≥ 1`, `simple_rerank` returns
exactly `min(top_k, len(candidates))` scored pairs, sorted non-increasing by
score, and equal to the `top_k`-prefix of the stable descending sort — ties
broken by original candidate position, stated via the position-refined
comparison `List.enumLE` on the index-annotated list. -/
theorem c5_rerank_amended (α : Type) (content : α → String) (q : String)
    (docs : List α) (k : Nat) (hk : 1 ≤ k) :
    (simple_rerank content q docs k).length = min k docs.length ∧
    List.Pairwise (fun a b => b.2 ≤ a.2) (simple_rerank content q docs k) ∧
    simple_rerank content q docs k =
      (((docs.map (fun d => (d, rerank_final_score q (content d)))).enum.mergeSort
        (List.enumLE (fun a b => decide (b.2 ≤ a.2)))).map (fun p => p.2)).take k := by
  have hk0 : k ≠ 0 := by omega
  refine ⟨?_, ?_, ?_⟩
  · simp [simple_rerank, hk0]
  · have hs := @List.sorted_mergeSort _ (fun a b : α × ℚ => decide (b.2 ≤ a.2))
      (fun a b c hab hbc => by
        simp only [decide_eq_true_eq] at *
        exact le_trans hbc hab)
      (fun a b => by
        simp only [Bool.or_eq_true, decide_eq_true_eq]
        exact le_total b.2 a.2)
      (docs.map (fun d => (d, rerank_final_score q (content d))))
    have hs' : List.Pairwise (fun a b : α × ℚ => b.2 ≤ a.2)
        ((docs.map (fun d => (d, rerank_final_score q (content d)))).mergeSort
          (fun a b => decide (b.2 ≤ a.2))) :=
      hs.imp (fun h => by simpa using h)
    simp only [simple_rerank, if_neg hk0]
    exact hs'.sublist (List.take_sublist _ _)
  · simp only [simple_rerank, if_neg hk0]
    rw [← List.mergeSort_enum]

/-- C5 (witness): the amended rerank theorem applied at a concrete singleton
candidate list with `top_k = 1`. -/
theorem c5_witness :
    1 ≤ 1 ∧
    ((simple_rerank Doc.page_content "a" [⟨"x", none, none⟩] 1).length =
        min 1 [(⟨"x", none, none⟩ : Doc)].length ∧
      List.Pairwise (fun p r => r.2 ≤ p.2)
        (simple_rerank Doc.page_content "a" [⟨"x", none, none⟩] 1) ∧
      simple_rerank Doc.page_content "a" [⟨"x", none, none⟩] 1 =
        ((([(⟨"x", none, none⟩ : Doc)].map
            (fun d => (d, rerank_final_score "a" (Doc.page_content d)))).enum.mergeSort
          (List.enumLE (fun p r => decide (r.2 ≤ p.2)))).map (fun p => p.2)).take 1) :=
  ⟨by decide, c5_rerank_amended Doc Doc.page_content "a" [⟨"x", none, none⟩] 1 (by decide)⟩

/-- Every element of the content-dedup of a list is an element of the list. -/
theorem mem_dedupByContent : ∀ (l : List Doc) (x : Doc),
    x ∈ dedupByContent l → x ∈ l := by
  intro l
  induction l using dedupByContent.induct with
  | case1 => simp [dedupByContent]
  | case2 d rest ih =>
    intro x hx
    rw [dedupByContent] at hx
    rcases List.mem_cons.mp hx with h | h
    · simp [h]
    · exact List.mem_cons.mpr (Or.inr (List.mem_filter.mp (ih x h)).1)

/-- The contents of the content-dedup of a list are pairwise distinct. -/
theorem nodup_map_dedupByContent :
    ∀ l : List Doc, ((dedupByContent l).map Doc.page_content).Nodup := by
  intro l
  induction l using dedupByContent.induct with
  | case1 => simp [dedupByContent]
  | case2 d rest ih =>
    rw [dedupByContent]
    simp only [List.map_cons, List.nodup_cons]
    refine ⟨?_, ih⟩
    intro hmem
    rcases List.mem_map.mp hmem with ⟨y, hy, hpc⟩
    have hyf := (List.mem_filter.mp (mem_dedupByContent _ _ hy)).2
    simp only [bne_iff_ne, ne_eq] at hyf
    exact hyf hpc

/-- The break-at-`k` dedup loop of `hyde_retrieve`, truncated to `k`, agrees
with the full first-seen content dedup (restricted to contents not yet seen)
truncated to `k`. -/
theorem hydeLoop_take (k : Nat) : ∀ (l : List Doc) (seen : List String)
    (acc : List Doc),
    (∀ s, s ∈ seen ↔ s ∈ acc.map Doc.page_content) → acc.length < k →
    (hydeLoop k seen acc l).take k =
      (acc ++ dedupByContent
        (l.filter (fun d => !(decide (d.page_content ∈ seen))))).take k := by
  intro l
  induction l with
  | nil =>
    intro seen acc hinv hlen
    simp [hydeLoop, dedupByContent]
  | cons d rest ih =>
    intro seen acc hinv hlen
    by_cases hd : d.page_content ∈ seen
    · have hdb : (!(decide (d.page_content ∈ seen))) = false := by simp [hd]
      rw [hydeLoop, if_pos hd, ih seen acc hinv hlen, List.filter_cons, hdb]
      simp
    · have hdb : (!(decide (d.page_content ∈ seen))) = true := by simp [hd]
      rw [hydeLoop, if_neg hd, List.filter_cons, hdb]
      simp only [if_true]
      rw [dedupByContent]
      by_cases hcap : k ≤ acc.length + 1
      · have hkeq : k = acc.length + 1 := by omega
        rw [if_pos hcap, hkeq]
        rw [List.take_append_eq_append_take, List.take_append_eq_append_take]
        have hacc : acc.take (acc.length + 1) = acc :=
          List.take_of_length_le (by omega)
        rw [hacc]
        simp
      · have hlen' : (acc ++ [d]).length < k := by
          simp only [List.length_append, List.length_singleton]
          omega
        have hinv' : ∀ s, s ∈ d.page_content :: seen ↔
            s ∈ (acc ++ [d]).map Doc.page_content := by
          intro s
          simp only [List.mem_cons, List.map_append, List.mem_append,
            List.map_cons, List.map_nil, hinv s]
          tauto
        rw [if_neg hcap, ih _ _ hinv' hlen']
        have hfil : rest.filter (fun x => !(decide (x.page_content ∈ d.page_content :: seen))) =
            (rest.filter (fun x => !(decide (x.page_content ∈ seen)))).filter
              (fun x => x.page_content != d.page_content) := by
          rw [List.filter_filter]
          apply List.filter_congr
          intro x _
          by_cases h1 : x.page_content = d.page_content <;>
            by_cases h2 : x.page_content ∈ seen <;>
              simp [h1, h2, bne]
        rw [hfil]
        simp [List.append_assoc]

/-- `hyde_retrieve` with a truthy `k` and both store searches succeeding
returns the `k`-prefix of the first-seen content-dedup of the concatenation
(hypothetical-answer results first). -/
theorem hyde_retrieve_ok_eq (search : String → Nat → Except String (List Doc))
    (hypo : String → Except String String) (topK : Nat) (q : String) (k : Nat)
    (hk : 1 ≤ k) (hr qr : List Doc)
    (h1 : search (generate_hypothetical_answer hypo q) (k * 2) = .ok hr)
    (h2 : search q k = .ok qr) :
    hyde_retrieve search hypo topK q k =
      .ok ((dedupByContent (hr ++ qr)).take k) := by
  have hk0 : k ≠ 0 := by omega
  have hk2 : k * 2 ≠ 0 := by omega
  simp only [hyde_retrieve, similarity_search, pyOr_of_ne_zero hk0,
    pyOr_of_ne_zero hk2, h1, h2]
  have hloop := hydeLoop_take k (hr ++ qr) [] []
    (by simp) (by simp only [List.length_nil]; omega)
  simp at hloop
  rw [hloop]

/-- C8 (counterexample): the claim quantified over every `k` fails at
`k = 0`: `k or settings.TOP_K` coalesces `0` to the configured `TOP_K`, so
with one stored chunk `hyde_retrieve(question, 0)` returns one chunk, not at
most `0`. -/
theorem c8_counterexample :
    hyde_retrieve (fun _ _ => .ok [⟨"x", none, none⟩]) (fun _ => .ok "h")
        5 "q" 0 = .ok [⟨"x", none, none⟩] ∧
    ¬ ([(⟨"x", none, none⟩ : Doc)].length ≤ 0) := by
  exact ⟨rfl, by decide⟩

/-- C8 (amended): for every truthy `k ≥ 1` (a falsy `k` is first replaced by
`settings.TOP_K`, cf. C10), when both store searches succeed
`hyde_retrieve` returns exactly the `k`-prefix of the first-seen
content-dedup of the hypothetical-answer results (requested with `2k`)
followed by the question results (requested with `k`); consequently the
output has at most `k` chunks and no two chunks with identical content. -/
theorem c8_hyde_amended (search : String → Nat → Except String (List Doc))
    (hypo : String → Except String String) (topK : Nat) (q : String) (k : Nat)
    (hk : 1 ≤ k) (hr qr : List Doc)
    (h1 : search (generate_hypothetical_answer hypo q) (k * 2) = .ok hr)
    (h2 : search q k = .ok qr) :
    hyde_retrieve search hypo topK q k =
      .ok ((dedupByContent (hr ++ qr)).take k) ∧
    ((dedupByContent (hr ++ qr)).take k).length ≤ k ∧
    (((dedupByContent (hr ++ qr)).take k).map Doc.page_content).Nodup := by
  refine ⟨hyde_retrieve_ok_eq search hypo topK q k hk hr qr h1 h2, ?_, ?_⟩
  · exact List.length_take_le _ _
  · exact List.Nodup.sublist
      (List.Sublist.map Doc.page_content (List.take_sublist _ _))
      (nodup_map_dedupByContent _)

/-- C8 (witness): the amended HyDE theorem applied to a concrete
single-chunk store with `k = 1`. -/
theorem c8_witness :
    hyde_retrieve (fun _ _ => .ok [⟨"x", none, none⟩]) (fun _ => .ok "h")
        5 "q" 1 =
      .ok ((dedupByContent ([⟨"x", none, none⟩] ++ [⟨"x", none, none⟩])).take 1) ∧
    ((dedupByContent ([(⟨"x", none, none⟩ : Doc)] ++ [⟨"x", none, none⟩])).take 1).length ≤ 1 ∧
    (((dedupByContent ([(⟨"x", none, none⟩ : Doc)] ++ [⟨"x", none, none⟩])).take 1).map
      Doc.page_content).Nodup :=
  c8_hyde_amended (fun _ _ => .ok [⟨"x", none, none⟩]) (fun _ => .ok "h")
    5 "q" 1 (by decide) [⟨"x", none, none⟩] [⟨"x", none, none⟩] rfl rfl

/-- The citation loop produces one citation per source document. -/
theorem length_buildCitations (t : String) (docs : List Doc) :
    (buildCitations t docs).length = docs.length := by
  simp [buildCitations]

/-- The ranked citation loop produces one citation per ranked pair. -/
theorem length_buildCitationsRanked (t : String) (ranked : List (Doc × ℚ)) :
    (buildCitationsRanked t ranked).length = ranked.length := by
  simp [buildCitationsRanked]

/-- The length of `simple_rerank`'s output in terms of its inputs. -/
theorem simple_rerank_length {α : Type} (content : α → String) (q : String)
    (docs : List α) (k : Nat) :
    (simple_rerank content q docs k).length =
      min (if k = 0 then docs.length else k) docs.length := by
  simp [simple_rerank]

/-- A successful `hyde_retrieve` returns at most `k or TOP_K` documents. -/
theorem hyde_retrieve_ok_length {search : String → Nat → Except String (List Doc)}
    {hypo : String → Except String String} {topK : Nat} {q : String} {k : Nat}
    {docs : List Doc}
    (h : hyde_retrieve search hypo topK q k = .ok docs) :
    docs.length ≤ pyOr k topK := by
  rw [hyde_retrieve] at h
  cases h1 : similarity_search search topK
      (generate_hypothetical_answer hypo q) (pyOr k topK * 2) with
  | error e => rw [h1] at h; cases h
  | ok hr =>
    rw [h1] at h
    cases h2 : similarity_search search topK q (pyOr k topK) with
    | error e => rw [h2] at h; cases h
    | ok qr =>
      rw [h2] at h
      cases h
      exact List.length_take_le _ _

/-- When the candidate pool respects the requested size `2·top_k or top_k`,
`simple_rerank` keeps at most `top_k` documents. -/
theorem rerank_count_le {α : Type} (content : α → String) (q : String)
    (topK : Nat) (cand : List α) (h : cand.length ≤ pyOr (topK * 2) topK) :
    (simple_rerank content q cand topK).length ≤ topK := by
  rw [simple_rerank_length]
  by_cases htk : topK = 0
  · subst htk
    simp [pyOr] at h
    simpa using h
  · rw [if_neg htk]
    exact min_le_left _ _

/-- C1: for every question and collaborator respecting the store contract
(a search returns at most the requested number of chunks), each of the four
ask operations returns a result whose citation count equals its
`source_count`, with `source_count` at most the configured `top_k`; on the
error path both are zero so the invariant holds there too. -/
theorem c1_citations_source_count (c : Collab) (topK : Nat) (elapsed : ℚ)
    (q : String)
    (hstore : ∀ s k docs, c.search s k = Except.ok docs → docs.length ≤ k) :
    ((ask_basic c topK elapsed q).citations.length =
        (ask_basic c topK elapsed q).source_count ∧
      (ask_basic c topK elapsed q).source_count ≤ topK) ∧
    ((ask_hyde c topK elapsed q).citations.length =
        (ask_hyde c topK elapsed q).source_count ∧
      (ask_hyde c topK elapsed q).source_count ≤ topK) ∧
    ((ask_rerank c topK elapsed q).citations.length =
        (ask_rerank c topK elapsed q).source_count ∧
      (ask_rerank c topK elapsed q).source_count ≤ topK) ∧
    ((ask_enhanced c topK elapsed q).citations.length =
        (ask_enhanced c topK elapsed q).source_count ∧
      (ask_enhanced c topK elapsed q).source_count ≤ topK) := by
  refine ⟨?_, ?_, ?_, ?_⟩
  · rcases hs : similarity_search c.search topK q topK with e | docs
    · simp [ask_basic, hs, askError]
    · have hs' : c.search q topK = .ok docs := by
        simpa [similarity_search, pyOr_self] using hs
      rcases hg : c.generate (build_prompt docs q) with e | p
      · simp [ask_basic, hs, hg, askError]
      · simp [ask_basic, hs, hg, length_buildCitations, hstore q topK docs hs']
  · rcases hh : hyde_retrieve c.search c.hypo topK q topK with e | docs
    · simp [ask_hyde, hh, askError]
    · have hlen : docs.length ≤ topK := by
        have := hyde_retrieve_ok_length hh
        rwa [pyOr_self] at this
      rcases hg : c.generate (build_prompt docs q) with e | p
      · simp [ask_hyde, hh, hg, askError]
      · simp [ask_hyde, hh, hg, length_buildCitations, hlen]
  · rcases hs : similarity_search c.search topK q (topK * 2) with e | cand
    · simp [ask_rerank, hs, askError]
    · have hs' : c.search q (pyOr (topK * 2) topK) = .ok cand := by
        simpa [similarity_search] using hs
      have hcand := hstore _ _ _ hs'
      rcases hg : c.generate
          (build_prompt ((simple_rerank Doc.page_content q cand topK).map Prod.fst) q)
        with e | p
      · simp [ask_rerank, hs, hg, askError]
      · simp [ask_rerank, hs, hg, length_buildCitationsRanked,
          rerank_count_le Doc.page_content q topK cand hcand]
  · rcases hh : hyde_retrieve c.search c.hypo topK q (topK * 2) with e | cand
    · simp [ask_enhanced, hh, askError]
    · have hcand := hyde_retrieve_ok_length hh
      rcases hg : c.generate
          (build_prompt ((simple_rerank Doc.page_content q cand topK).map Prod.fst) q)
        with e | p
      · simp [ask_enhanced, hh, hg, askError]
      · simp [ask_enhanced, hh, hg, length_buildCitationsRanked,
          rerank_count_le Doc.page_content q topK cand hcand]

/-- C1 (witness): the citation/source-count invariant applied to a concrete
collaborator whose store returns no chunks. -/
theorem c1_witness :
    ((ask_basic ⟨fun _ _ => .ok [], fun _ => .ok ("ans", none), fun _ => .ok "h"⟩
        5 0 "q").citations.length =
      (ask_basic ⟨fun _ _ => .ok [], fun _ => .ok ("ans", none), fun _ => .ok "h"⟩
        5 0 "q").source_count ∧
      (ask_basic ⟨fun _ _ => .ok [], fun _ => .ok ("ans", none), fun _ => .ok "h"⟩
        5 0 "q").source_count ≤ 5) ∧
    ((ask_hyde ⟨fun _ _ => .ok [], fun _ => .ok ("ans", none), fun _ => .ok "h"⟩
        5 0 "q").citations.length =
      (ask_hyde ⟨fun _ _ => .ok [], fun _ => .ok ("ans", none), fun _ => .ok "h"⟩
        5 0 "q").source_count ∧
      (ask_hyde ⟨fun _ _ => .ok [], fun _ => .ok ("ans", none), fun _ => .ok "h"⟩
        5 0 "q").source_count ≤ 5) ∧
    ((ask_rerank ⟨fun _ _ => .ok [], fun _ => .ok ("ans", none), fun _ => .ok "h"⟩
        5 0 "q").citations.length =
      (ask_rerank ⟨fun _ _ => .ok [], fun _ => .ok ("ans", none), fun _ => .ok "h"⟩
        5 0 "q").source_count ∧
      (ask_rerank ⟨fun _ _ => .ok [], fun _ => .ok ("ans", none), fun _ => .ok "h"⟩
        5 0 "q").source_count ≤ 5) ∧
    ((ask_enhanced ⟨fun _ _ => .ok [], fun _ => .ok ("ans", none), fun _ => .ok "h"⟩
        5 0 "q").citations.length =
      (ask_enhanced ⟨fun _ _ => .ok [], fun _ => .ok ("ans", none), fun _ => .ok "h"⟩
        5 0 "q").source_count ∧
      (ask_enhanced ⟨fun _ _ => .ok [], fun _ => .ok ("ans", none), fun _ => .ok "h"⟩
        5 0 "q").source_count ≤ 5) :=
  c1_citations_source_count
    ⟨fun _ _ => .ok [], fun _ => .ok ("ans", none), fun _ => .ok "h"⟩ 5 0 "q"
    (fun _ _ docs h => by cases h; simp)

/-- C9: when a pipeline step raises — the store search failing on every call,
or the generation call failing on every prompt — each of the four ask
operations still returns (no exception escapes, the functions being total)
the well-formed error result: an apology answer embedding the error text,
empty citations, confidence exactly `0.0`, `source_count` `0`, and the
elapsed time measured at the failure. -/
theorem c9_error_path (c : Collab) (topK : Nat) (elapsed : ℚ) (q : String)
    (hfail : (∀ s k, ∃ er, c.search s k = Except.error er) ∨
      (∀ p, ∃ er, c.generate p = Except.error er)) :
    (∃ m, ask_basic c topK elapsed q = askError q m elapsed "basic") ∧
    (∃ m, ask_hyde c topK elapsed q = askError q m elapsed "hyde") ∧
    (∃ m, ask_rerank c topK elapsed q = askError q m elapsed "rerank") ∧
    (∃ m, ask_enhanced c topK elapsed q = askError q m elapsed "hyde+rerank") := by
  rcases hfail with hs | hg
  · refine ⟨?_, ?_, ?_, ?_⟩
    · obtain ⟨er, h⟩ := hs q (pyOr topK topK)
      exact ⟨er, by simp [ask_basic, similarity_search, h]⟩
    · obtain ⟨er, h⟩ := hs (generate_hypothetical_answer c.hypo q)
        (pyOr (pyOr topK topK * 2) topK)
      exact ⟨er, by simp [ask_hyde, hyde_retrieve, similarity_search, h]⟩
    · obtain ⟨er, h⟩ := hs q (pyOr (topK * 2) topK)
      exact ⟨er, by simp [ask_rerank, similarity_search, h]⟩
    · obtain ⟨er, h⟩ := hs (generate_hypothetical_answer c.hypo q)
        (pyOr (pyOr (topK * 2) topK * 2) topK)
      exact ⟨er, by simp [ask_enhanced, hyde_retrieve, similarity_search, h]⟩
  · refine ⟨?_, ?_, ?_, ?_⟩
    · rcases hsr : similarity_search c.search topK q topK with e | docs
      · exact ⟨e, by simp [ask_basic, hsr]⟩
      · obtain ⟨er, h⟩ := hg (build_prompt docs q)
        exact ⟨er, by simp [ask_basic, hsr, h]⟩
    · rcases hh : hyde_retrieve c.search c.hypo topK q topK with e | docs
      · exact ⟨e, by simp [ask_hyde, hh]⟩
      · obtain ⟨er, h⟩ := hg (build_prompt docs q)
        exact ⟨er, by simp [ask_hyde, hh, h]⟩
    · rcases hsr : similarity_search c.search topK q (topK * 2) with e | cand
      · exact ⟨e, by simp [ask_rerank, hsr]⟩
      · obtain ⟨er, h⟩ := hg
          (build_prompt ((simple_rerank Doc.page_content q cand topK).map Prod.fst) q)
        exact ⟨er, by simp [ask_rerank, hsr, h]⟩
    · rcases hh : hyde_retrieve c.search c.hypo topK q (topK * 2) with e | cand
      · exact ⟨e, by simp [ask_enhanced, hh]⟩
      · obtain ⟨er, h⟩ := hg
          (build_prompt ((simple_rerank Doc.page_content q cand topK).map Prod.fst) q)
        exact ⟨er, by simp [ask_enhanced, hh, h]⟩

/-- C9 (witness): the error-path theorem applied to a concrete collaborator
whose store raises on every call. -/
theorem c9_witness :
    (∃ m, ask_basic ⟨fun _ _ => .error "boom", fun _ => .ok ("ans", none),
        fun _ => .ok "h"⟩ 5 0 "q" = askError "q" m 0 "basic") ∧
    (∃ m, ask_hyde ⟨fun _ _ => .error "boom", fun _ => .ok ("ans", none),
        fun _ => .ok "h"⟩ 5 0 "q" = askError "q" m 0 "hyde") ∧
    (∃ m, ask_rerank ⟨fun _ _ => .error "boom", fun _ => .ok ("ans", none),
        fun _ => .ok "h"⟩ 5 0 "q" = askError "q" m 0 "rerank") ∧
    (∃ m, ask_enhanced ⟨fun _ _ => .error "boom", fun _ => .ok ("ans", none),
        fun _ => .ok "h"⟩ 5 0 "q" = askError "q" m 0 "hyde+rerank") :=
  c9_error_path
    ⟨fun _ _ => .error "boom", fun _ => .ok ("ans", none), fun _ => .ok "h"⟩
    5 0 "q" (Or.inl (fun _ _ => ⟨"boom", rfl⟩))

end RagSpec
